import Mathlib

/-!
Verification of the core control logic of the six-axis robot arm controller
(`My_Robot_with_Web_Interface_V6_Final.ino`).

The embedding below translates the state, the web command handler, the
EEPROM step store, the servo smoothing routine and the button handling
logic into pure Lean functions.  Machine integers (`uint16_t`, `int`,
`unsigned long`) are modelled as `Nat` / `Int`; the C truncating division
`diff / 8` is modelled with `Int.tdiv`; Arduino `constrain` and `map` are
translated literally.  Time (`millis()`) is an explicit `Nat` parameter,
and the result of `EEPROM.commit()` is an explicit `Bool` parameter.
-/

namespace Robot

/-- A position vector: one pulse width per servo channel (`NUM_SERVOS = 6`). -/
def Vec6 : Type := Fin 6 → Nat

instance : DecidableEq Vec6 := by unfold Vec6; infer_instance

/-- `constrain(amt, low, high)` from Arduino, on naturals. -/
def constrainN (x lo hi : Nat) : Nat := if x < lo then lo else if hi < x then hi else x

/-- `constrain(amt, low, high)` from Arduino, on integers. -/
def constrainI (x lo hi : Int) : Int := if x < lo then lo else if hi < x then hi else x

/-- `constrain(p, MIN_SERVO_PULSE, MAX_SERVO_PULSE)` with the configured bounds 600/2400. -/
def clampPulse (x : Nat) : Nat := constrainN x 600 2400

/-- Channel-wise clamping of a position vector into `[MIN_SERVO_PULSE, MAX_SERVO_PULSE]`. -/
def clampV (v : Vec6) : Vec6 := fun i => clampPulse (v i)

/-- The `OperatingMode` enumeration of the sketch. -/
inductive OperatingMode
  | idle
  | manualPot
  | webControl
  | playbackManual
  | playbackSemiAuto
  | playbackFullAuto
  | clearingMem
  | errorWifi
  | errorGeneric
deriving DecidableEq

/-- The numeric value of each enumerator, used by the sketch for range
comparisons such as `currentMode >= MODE_MANUAL_POT`. -/
def modeNum : OperatingMode → Nat
  | .idle => 0
  | .manualPot => 1
  | .webControl => 2
  | .playbackManual => 3
  | .playbackSemiAuto => 4
  | .playbackFullAuto => 5
  | .clearingMem => 6
  | .errorWifi => 7
  | .errorGeneric => 8

/-- The mutable global state of the sketch that the command and button logic
touches: the operating mode, the target/current servo positions, the last
pulses written to the PWM driver, the playback cursor, the number of stored
steps, the EEPROM step records, and the playback step timer. -/
structure RobotState where
  mode : OperatingMode
  target : Vec6
  current : Vec6
  driver : Vec6
  playbackIndex : Nat
  numRecorded : Nat
  steps : Nat → Vec6
  lastPlaybackActionTime : Nat

/-- `loadStepFromEEPROM`: an index outside `[0, numRecorded)` yields the
default positions (`DEFAULT_SERVO_PULSE = 1500`); otherwise the stored
record is read and each channel is constrained into the pulse bounds. -/
def loadStep (s : RobotState) (idx : Nat) : Vec6 :=
  if idx < s.numRecorded then clampV (s.steps idx) else fun _ => 1500

/-- `saveStepToEEPROM`: an index outside `[0, MAX_RECORDINGS)` is ignored;
otherwise each channel is constrained into the pulse bounds and written. -/
def saveStep (s : RobotState) (idx : Nat) (v : Vec6) : RobotState :=
  if idx < 100 then
    { s with steps := fun j => if j = idx then clampV v else s.steps j }
  else s

/-- `stopAllMovement(returnToIdle)`: targets are set to the current
positions; when `returnToIdle` is set the mode becomes `MODE_IDLE` unless
the controller is in one of the two error modes. -/
def stopAllMovement (s : RobotState) (returnToIdle : Bool) : RobotState :=
  let s1 := { s with target := s.current }
  if returnToIdle ∧ s1.mode ≠ .errorWifi ∧ s1.mode ≠ .errorGeneric then
    { s1 with mode := .idle }
  else s1

/-- Arduino `map(v, 0, 4095, MIN_SERVO_PULSE, MAX_SERVO_PULSE)`. -/
def mapPot (v : Nat) : Nat := v * 1800 / 4095 + 600

/-- `readPotentiometers`: a no-op unless the mode is `MODE_MANUAL_POT`;
otherwise every channel's target is set from the mapped analog reading. -/
def readPotentiometers (s : RobotState) (pots : Vec6) : RobotState :=
  if s.mode ≠ .manualPot then s
  else { s with target := fun i => mapPot (pots i) }

/-- `clearEEPROM`: enters `MODE_CLEARING_MEM`, overwrites the record area
with `0xFF` bytes (so every stored channel reads `0xFFFF`), writes a zero
count; on a successful commit the in-memory count and the playback cursor
are reset; finally the mode is set to `MODE_IDLE` unconditionally. -/
def clearEEPROM (s : RobotState) (commitOk : Bool) : RobotState :=
  let s1 := { s with mode := OperatingMode.clearingMem }
  let s2 := { s1 with steps := fun _ => fun _ => 0xFFFF }
  let s3 := if commitOk then { s2 with numRecorded := 0, playbackIndex := 0 } else s2
  { s3 with mode := OperatingMode.idle }

/-- `startPlayback(playbackMode)`: refuses when no steps are recorded or the
mode is not one of `MODE_IDLE`/`MODE_MANUAL_POT`/`MODE_WEB_CONTROL`;
otherwise an out-of-range playback cursor is reset to 0, the step at the
cursor is loaded as the target, the mode becomes the requested playback
mode and the step timer restarts. -/
def startPlayback (s : RobotState) (pb : OperatingMode) (now : Nat) : RobotState :=
  if s.numRecorded = 0 then s
  else if s.mode ≠ .idle ∧ s.mode ≠ .manualPot ∧ s.mode ≠ .webControl then s
  else
    let s1 := if s.numRecorded ≤ s.playbackIndex then { s with playbackIndex := 0 } else s
    let s2 := { s1 with target := loadStep s1 s1.playbackIndex }
    { s2 with mode := pb, lastPlaybackActionTime := now }

/-- The shifting loop of `delete_step`: `k` iterations of
`loadStepFromEEPROM(j+1); saveStepToEEPROM(j)` starting at slot `j`. -/
def shiftSteps (s : RobotState) (j : Nat) : Nat → RobotState
  | 0 => s
  | k + 1 => shiftSteps (saveStep s j (loadStep s (j + 1))) (j + 1) k

/-- The commands accepted by the `/command` endpoint.  The `step_index`
payload of `jump_to_step` / `delete_step` is a C `int`, hence `Int`. -/
inductive Command
  | playManual
  | playSemiAuto
  | playFullAuto
  | record
  | clear
  | stop
  | toggleMode
  | jumpToStep (idx : Int)
  | deleteStep (idx : Int)
  | unknown
deriving DecidableEq

/-- One tag per distinct response message built by `handleCommand`. -/
inductive Msg
  | manualStarted
  | semiStarted
  | fullStarted
  | noStepsToPlay
  | cannotPlayInMode
  | recorded
  | commitFailedRecord
  | maxReached
  | cannotRecordInMode
  | cleared
  | cannotClear
  | stopped
  | alreadyIdle
  | nothingToStop
  | webControlOn
  | manualPotOn
  | idleToWeb
  | cannotTogglePlayback
  | cannotToggleState
  | jumped
  | invalidJumpIndex
  | noStepsToJump
  | cannotJumpInMode
  | deleted
  | invalidDeleteIndex
  | cannotDeleteNow
  | commitFailedDelete
  | unknownCommand
deriving DecidableEq

/-- `handleCommand`: the `/command` POST handler.  `commitOk` is the result
of the (at most one) `EEPROM.commit()` call a command performs, `pots` are
the raw analog readings, `now` is `millis()`.  The result is the new state
together with the `success` flag and the response message. -/
def handleCommand (s : RobotState) (cmd : Command) (commitOk : Bool) (pots : Vec6)
    (now : Nat) : RobotState × Bool × Msg :=
  match cmd with
  | .playManual =>
      if (s.mode = .idle ∨ s.mode = .manualPot ∨ s.mode = .webControl) ∧ 0 < s.numRecorded then
        (startPlayback s .playbackManual now, true, .manualStarted)
      else (s, false, if s.numRecorded = 0 then .noStepsToPlay else .cannotPlayInMode)
  | .playSemiAuto =>
      if (s.mode = .idle ∨ s.mode = .manualPot ∨ s.mode = .webControl) ∧ 0 < s.numRecorded then
        (startPlayback s .playbackSemiAuto now, true, .semiStarted)
      else (s, false, if s.numRecorded = 0 then .noStepsToPlay else .cannotPlayInMode)
  | .playFullAuto =>
      if (s.mode = .idle ∨ s.mode = .manualPot ∨ s.mode = .webControl) ∧ 0 < s.numRecorded then
        (startPlayback s .playbackFullAuto now, true, .fullStarted)
      else (s, false, if s.numRecorded = 0 then .noStepsToPlay else .cannotPlayInMode)
  | .record =>
      if s.mode = .manualPot ∨ s.mode = .webControl ∨ s.mode = .idle then
        if s.numRecorded < 100 then
          let s1 := saveStep s s.numRecorded s.current
          let s2 := { s1 with numRecorded := s1.numRecorded + 1 }
          if commitOk then
            ({ s2 with playbackIndex := s2.numRecorded % 100 }, true, .recorded)
          else
            ({ s2 with numRecorded :=
                 if 0 < s2.numRecorded then s2.numRecorded - 1 else s2.numRecorded },
             false, .commitFailedRecord)
        else (s, false, .maxReached)
      else (s, false, .cannotRecordInMode)
  | .clear =>
      if s.mode ≠ .playbackManual ∧ s.mode ≠ .playbackSemiAuto ∧
         s.mode ≠ .playbackFullAuto ∧ s.mode ≠ .clearingMem then
        (clearEEPROM (stopAllMovement s false) commitOk, true, .cleared)
      else (s, false, .cannotClear)
  | .stop =>
      if 1 ≤ modeNum s.mode ∧ modeNum s.mode ≤ 5 then
        (stopAllMovement s true, true, .stopped)
      else if s.mode = .idle then (s, true, .alreadyIdle)
      else (s, true, .nothingToStop)
  | .toggleMode =>
      if s.mode = .manualPot then
        ({ s with mode := .webControl }, true, .webControlOn)
      else if s.mode = .webControl then
        let s1 := readPotentiometers s pots
        ({ s1 with mode := .manualPot }, true, .manualPotOn)
      else if s.mode = .idle then
        ({ s with mode := .webControl }, true, .idleToWeb)
      else if 3 ≤ modeNum s.mode ∧ modeNum s.mode ≤ 5 then
        (s, false, .cannotTogglePlayback)
      else (s, false, .cannotToggleState)
  | .jumpToStep idx =>
      if (s.mode = .idle ∨ s.mode = .manualPot ∨ s.mode = .webControl) ∧ 0 < s.numRecorded then
        if 0 ≤ idx ∧ idx < (s.numRecorded : Int) then
          let i := idx.toNat
          let s1 := { s with target := loadStep s i }
          ({ s1 with playbackIndex := (i + 1) % s1.numRecorded }, true, .jumped)
        else (s, false, .invalidJumpIndex)
      else (s, false, if s.numRecorded = 0 then .noStepsToJump else .cannotJumpInMode)
  | .deleteStep idx =>
      if idx < 0 ∨ (s.numRecorded : Int) ≤ idx then (s, false, .invalidDeleteIndex)
      else if 3 ≤ modeNum s.mode ∧ modeNum s.mode ≤ 6 then (s, false, .cannotDeleteNow)
      else
        let i := idx.toNat
        let s1 := shiftSteps s i (s.numRecorded - 1 - i)
        let s2 := { s1 with numRecorded := s1.numRecorded - 1 }
        if commitOk then
          let s3 := if i < s2.playbackIndex then
              { s2 with playbackIndex := s2.playbackIndex - 1 } else s2
          let s4 := if s3.numRecorded ≤ s3.playbackIndex then
              { s3 with playbackIndex := 0 } else s3
          (s4, true, .deleted)
        else ({ s2 with numRecorded := s2.numRecorded + 1 }, false, .commitFailedDelete)
  | .unknown => (s, false, .unknownCommand)

/-- One smoothing update of a single channel from `applyServoSmoothing`
(the body executed once per `SERVO_STEP_INTERVAL`): the target is first
constrained into the pulse bounds; if the difference exceeds the deadzone
(8) a step of `diff / 8` (C truncating division), constrained to
`[-15, 15]` and forced to `±1` when it rounds to zero, is applied; when the
remaining difference is no larger than the step the channel snaps to the
target; the result is re-constrained into the pulse bounds. -/
def smoothChannel (target current : Nat) : Nat :=
  let t := clampPulse target
  let diff : Int := (t : Int) - (current : Int)
  if 8 < diff.natAbs then
    let step0 := Int.tdiv diff 8
    let step1 := constrainI step0 (-15) 15
    let step2 := if step1 = 0 then (if 0 < diff then 1 else -1) else step1
    if diff.natAbs ≤ step2.natAbs then t
    else (constrainI ((current : Int) + step2) 600 2400).toNat
  else current

/-- One `applyServoSmoothing` tick: every channel is advanced independently. -/
def smoothTick (target : Vec6) (current : Vec6) : Vec6 :=
  fun i => smoothChannel (target i) (current i)

/-- Debounced edge events of a physical button during one `handleButtons`
call: a falling edge (press), a rising edge (release), or no edge. -/
inductive BtnEvent
  | press
  | release
  | tick
deriving DecidableEq

/-- The action classified by the run-button gesture recognizer:
single press (manual playback), double quick press (semi-auto playback),
or double press held (full-auto playback). -/
inductive RunAction
  | single
  | doubleQuick
  | doubleHeld
deriving DecidableEq

/-- The run (play) button timing state (`runBtn...` statics). -/
structure RunState where
  firstPressTime : Nat
  firstReleaseTime : Nat
  waitingSecond : Bool
  secondPressActive : Bool
  secondPressStart : Nat
  actionTaken : Bool
deriving DecidableEq

/-- The run-button state at boot: all timers zero, all flags clear. -/
def RunState.init : RunState :=
  { firstPressTime := 0, firstReleaseTime := 0, waitingSecond := false,
    secondPressActive := false, secondPressStart := 0, actionTaken := false }

/-- One `handleButtons` pass of the run-button logic: the falling-edge
handler, then the rising-edge handler, then the every-loop timeout check,
exactly in the order of the sketch.  Returns the new timing state and the
playback action emitted during this pass, if any. -/
def runBtnStep (b : RunState) (e : BtnEvent) (now : Nat) : RunState × Option RunAction :=
  let b1 :=
    match e with
    | .press =>
        if ¬b.waitingSecond then
          { b with firstPressTime := now, actionTaken := false, waitingSecond := true }
        else if now - b.firstPressTime ≤ 500 then
          { b with secondPressActive := true, secondPressStart := now, actionTaken := false }
        else
          { b with firstPressTime := now, actionTaken := false, waitingSecond := true,
                   secondPressActive := false }
    | .release => b
    | .tick => b
  let (b2, act1) :=
    match e with
    | .release =>
        if b1.secondPressActive then
          let held := now - b1.secondPressStart
          let (b', a) :=
            if ¬b1.actionTaken then
              if 1000 ≤ held then ({ b1 with actionTaken := true }, some RunAction.doubleHeld)
              else ({ b1 with actionTaken := true }, some RunAction.doubleQuick)
            else (b1, none)
          ({ b' with waitingSecond := false, secondPressActive := false }, a)
        else if b1.waitingSecond then ({ b1 with firstReleaseTime := now }, none)
        else (b1, none)
    | _ => (b1, none)
  if b2.waitingSecond ∧ ¬b2.actionTaken ∧ ¬b2.secondPressActive ∧
     0 < b2.firstReleaseTime ∧ 500 < now - b2.firstReleaseTime then
    ({ b2 with actionTaken := true, waitingSecond := false, firstReleaseTime := 0 },
     match act1 with | some a => some a | none => some RunAction.single)
  else (b2, act1)

/-- Run the run-button recognizer over a list of timed events, collecting
every emitted action in order. -/
def runBtnTrace (b : RunState) : List (Nat × BtnEvent) → RunState × List RunAction
  | [] => (b, [])
  | (now, e) :: rest =>
      let (b1, a) := runBtnStep b e now
      let (b2, as) := runBtnTrace b1 rest
      (b2, (match a with | some x => [x] | none => []) ++ as)

/-- The stop button timing state (`stopBtn...` statics). -/
structure StopState where
  firstPressTime : Nat
  firstReleaseTime : Nat
  waitingSecond : Bool
  actionTaken : Bool
deriving DecidableEq

/-- The stop-button state at boot. -/
def StopState.init : StopState :=
  { firstPressTime := 0, firstReleaseTime := 0, waitingSecond := false, actionTaken := false }

/-- The action emitted by the stop-button logic: a double press stops and
resets to step 0; a timed-out single press just stops. -/
inductive StopAction
  | stopReset
  | stopOnly
deriving DecidableEq

/-- One `handleButtons` pass of the stop-button timing logic (falling edge,
rising edge, then timeout, in the sketch's order). -/
def stopBtnStep (b : StopState) (e : BtnEvent) (now : Nat) : StopState × Option StopAction :=
  let (b1, act1) :=
    match e with
    | .press =>
        if ¬b.waitingSecond then
          ({ b with firstPressTime := now, actionTaken := false, waitingSecond := true }, none)
        else if now - b.firstPressTime ≤ 500 then
          if ¬b.actionTaken then
            ({ b with actionTaken := true, waitingSecond := false }, some StopAction.stopReset)
          else ({ b with waitingSecond := false }, none)
        else
          ({ b with firstPressTime := now, actionTaken := false, waitingSecond := true }, none)
    | .release =>
        if b.waitingSecond then ({ b with firstReleaseTime := now }, none)
        else (b, none)
    | .tick => (b, none)
  if b1.waitingSecond ∧ ¬b1.actionTaken ∧
     0 < b1.firstReleaseTime ∧ 500 < now - b1.firstReleaseTime then
    ({ b1 with actionTaken := true, waitingSecond := false, firstReleaseTime := 0 },
     match act1 with | some a => some a | none => some StopAction.stopOnly)
  else (b1, act1)

/-- The global effect of a stop-button action.  A double press first (when
steps exist) loads step 0 as the target, forces every current position to
it, writes it to the PWM driver immediately and resets the playback cursor;
both actions then run `stopAllMovement(true)`. -/
def applyStopAction (g : RobotState) : StopAction → RobotState
  | .stopReset =>
      let g1 :=
        if 0 < g.numRecorded then
          let v := loadStep g 0
          { g with target := v, current := v, driver := v, playbackIndex := 0 }
        else g
      stopAllMovement g1 true
  | .stopOnly => stopAllMovement g true

/-- The stop-button section of `handleButtons`, acting on the global state. -/
def stopBtnSection (g : RobotState) (b : StopState) (e : BtnEvent) (now : Nat) :
    RobotState × StopState :=
  let (b1, act) := stopBtnStep b e now
  (match act with
   | some a => applyStopAction g a
   | none => g, b1)

/-- The run-button section of `handleButtons`, acting on the global state:
an emitted action invokes `startPlayback` with the corresponding mode. -/
def runBtnSection (g : RobotState) (b : RunState) (e : BtnEvent) (now : Nat) :
    RobotState × RunState :=
  let (b1, act) := runBtnStep b e now
  (match act with
   | some RunAction.single => startPlayback g .playbackManual now
   | some RunAction.doubleQuick => startPlayback g .playbackSemiAuto now
   | some RunAction.doubleHeld => startPlayback g .playbackFullAuto now
   | none => g, b1)

/-- The record-button section of `handleButtons`: a simple press records
the current smoothed position, exactly as the web `record` command does
(including the commit-failure rollback of the count). -/
def recordBtnSection (g : RobotState) (fell : Bool) (commitOk : Bool) : RobotState :=
  if fell then
    if g.mode = .manualPot ∨ g.mode = .webControl ∨ g.mode = .idle then
      if g.numRecorded < 100 then
        let g1 := saveStep g g.numRecorded g.current
        let g2 := { g1 with numRecorded := g1.numRecorded + 1 }
        if commitOk then { g2 with playbackIndex := g2.numRecorded % 100 }
        else { g2 with numRecorded :=
                if 0 < g2.numRecorded then g2.numRecorded - 1 else g2.numRecorded }
      else g
    else g
  else g

/-- The clear-memory-button section of `handleButtons` (hold detection):
`ct` is the `clearButtonPressTime` static, `down` is the debounced level
(`read() == LOW`).  A sufficiently long hold in a permitted mode stops
movement and clears the EEPROM. -/
def clearBtnSection (g : RobotState) (ct : Nat) (fell down rose : Bool) (now : Nat)
    (commitOk : Bool) : RobotState × Nat :=
  let ct1 := if fell then now else ct
  let (g2, ct2) :=
    if down then
      if 0 < ct1 ∧ 1000 ≤ now - ct1 then
        if modeNum g.mode < 3 ∧ g.mode ≠ .clearingMem then
          (clearEEPROM (stopAllMovement g false) commitOk, 0)
        else if ct1 ≠ 0 then (g, 0)
        else (g, ct1)
      else (g, ct1)
    else (g, ct1)
  if rose then (g2, 0) else (g2, ct2)

/-- The button timing state of all four physical inputs. -/
structure ButtonsState where
  clearPressTime : Nat
  run : RunState
  stop : StopState

/-- One full `handleButtons` pass: the clear, record, run and stop sections
in the order of the sketch, threading the global state through. -/
def handleButtonsStep (g : RobotState) (b : ButtonsState)
    (clearFell clearDown clearRose : Bool) (recFell : Bool)
    (runEv stopEv : BtnEvent) (now : Nat) (commitOk : Bool) :
    RobotState × ButtonsState :=
  let p1 := clearBtnSection g b.clearPressTime clearFell clearDown clearRose now commitOk
  let g2 := recordBtnSection p1.1 recFell commitOk
  let p3 := runBtnSection g2 b.run runEv now
  let p4 := stopBtnSection p3.1 b.stop stopEv now
  (p4.1, { clearPressTime := p1.2, run := p3.2, stop := p4.2 })

/-- A sample store content used to instantiate theorems on concrete inputs. -/
def sampleSteps : Nat → Vec6 := fun _ => fun _ => 700

/-- A sample controller state: idle, centered servos, three recorded steps. -/
def sampleState : RobotState :=
  { mode := .idle, target := fun _ => 1500, current := fun _ => 1500,
    driver := fun _ => 1500, playbackIndex := 0, numRecorded := 3,
    steps := sampleSteps, lastPlaybackActionTime := 0 }

/-- All-zero analog readings. -/
def potsZero : Vec6 := fun _ => 0

/-- A sample target vector for the smoothing theorem. -/
def targetSample : Vec6 := fun _ => 2000

/-- A sample current-position vector for the smoothing theorem. -/
def currentSample : Vec6 := fun _ => 600

/-- A stop-button state: first press registered at 100 ms, released at
150 ms, still awaiting a second press, no action taken yet. -/
def stopArmed : StopState :=
  { firstPressTime := 100, firstReleaseTime := 150, waitingSecond := true, actionTaken := false }

/-- The sample state after a WiFi loss: `MODE_ERROR_WIFI`. -/
def errorState : RobotState :=
  { sampleState with mode := OperatingMode.errorWifi }

/-- The sample state in `MODE_WEB_CONTROL`. -/
def webState : RobotState :=
  { sampleState with mode := OperatingMode.webControl }

section Lemmas

lemma saveStep_numRecorded (s : RobotState) (idx : Nat) (v : Vec6) :
    (saveStep s idx v).numRecorded = s.numRecorded := by
  unfold saveStep; split <;> rfl

lemma saveStep_mode (s : RobotState) (idx : Nat) (v : Vec6) :
    (saveStep s idx v).mode = s.mode := by
  unfold saveStep; split <;> rfl

lemma saveStep_playbackIndex (s : RobotState) (idx : Nat) (v : Vec6) :
    (saveStep s idx v).playbackIndex = s.playbackIndex := by
  unfold saveStep; split <;> rfl

lemma saveStep_steps_lt (s : RobotState) (idx : Nat) (v : Vec6) (h : idx < 100) :
    (saveStep s idx v).steps = fun j => if j = idx then clampV v else s.steps j := by
  unfold saveStep; rw [if_pos h]

lemma shiftSteps_numRecorded : ∀ (k : Nat) (s : RobotState) (j : Nat),
    (shiftSteps s j k).numRecorded = s.numRecorded := by
  intro k
  induction k with
  | zero => intro s j; rfl
  | succ n ih => intro s j; rw [shiftSteps, ih, saveStep_numRecorded]

lemma shiftSteps_mode : ∀ (k : Nat) (s : RobotState) (j : Nat),
    (shiftSteps s j k).mode = s.mode := by
  intro k
  induction k with
  | zero => intro s j; rfl
  | succ n ih => intro s j; rw [shiftSteps, ih, saveStep_mode]

lemma shiftSteps_playbackIndex : ∀ (k : Nat) (s : RobotState) (j : Nat),
    (shiftSteps s j k).playbackIndex = s.playbackIndex := by
  intro k
  induction k with
  | zero => intro s j; rfl
  | succ n ih => intro s j; rw [shiftSteps, ih, saveStep_playbackIndex]

lemma startPlayback_spec (s : RobotState) (pb : OperatingMode) (now : Nat)
    (hm : s.mode = .idle ∨ s.mode = .manualPot ∨ s.mode = .webControl)
    (hn : 0 < s.numRecorded) :
    (startPlayback s pb now).mode = pb ∧
    (startPlayback s pb now).target =
      loadStep s (if s.numRecorded ≤ s.playbackIndex then 0 else s.playbackIndex) := by
  unfold startPlayback
  rw [if_neg (by omega)]
  rw [if_neg (by rcases hm with h | h | h <;> simp [h])]
  split
  · constructor
    · rfl
    · simp only [loadStep]
  · constructor
    · rfl
    · rfl

lemma clearEEPROM_mode (s : RobotState) (commitOk : Bool) :
    (clearEEPROM s commitOk).mode = .idle := by
  unfold clearEEPROM; split <;> rfl

lemma stopAllMovement_mode_false (s : RobotState) :
    (stopAllMovement s false).mode = s.mode := by
  unfold stopAllMovement
  rw [if_neg (by simp)]

lemma stopAllMovement_mode_error (s : RobotState) (b : Bool)
    (h : s.mode = .errorWifi ∨ s.mode = .errorGeneric) :
    (stopAllMovement s b).mode = s.mode := by
  unfold stopAllMovement
  rcases h with h | h <;> rw [if_neg (by simp [h])]

lemma startPlayback_of_badMode (s : RobotState) (pb : OperatingMode) (now : Nat)
    (h : s.mode ≠ .idle ∧ s.mode ≠ .manualPot ∧ s.mode ≠ .webControl) :
    startPlayback s pb now = s := by
  by_cases h0 : s.numRecorded = 0
  · simp [startPlayback, h0]
  · simp [startPlayback, h0, h]

lemma clearBtnSection_state_of_error (g : RobotState) (ct : Nat) (f d r : Bool) (now : Nat)
    (c : Bool) (h : g.mode = .errorWifi ∨ g.mode = .errorGeneric) :
    (clearBtnSection g ct f d r now c).1 = g := by
  have h3 : ¬(modeNum g.mode < 3 ∧ g.mode ≠ .clearingMem) := by
    rcases h with h | h <;> simp [h, modeNum]
  unfold clearBtnSection
  split_ifs <;> simp_all [apply_ite Prod.fst]

lemma recordBtnSection_of_error (g : RobotState) (f c : Bool)
    (h : g.mode = .errorWifi ∨ g.mode = .errorGeneric) :
    recordBtnSection g f c = g := by
  have hm : ¬(g.mode = .manualPot ∨ g.mode = .webControl ∨ g.mode = .idle) := by
    rcases h with h | h <;> simp [h]
  unfold recordBtnSection
  split_ifs <;> simp_all

lemma runBtnSection_of_error (g : RobotState) (b : RunState) (e : BtnEvent) (now : Nat)
    (h : g.mode = .errorWifi ∨ g.mode = .errorGeneric) :
    (runBtnSection g b e now).1 = g := by
  have hm : g.mode ≠ .idle ∧ g.mode ≠ .manualPot ∧ g.mode ≠ .webControl := by
    rcases h with h | h <;> simp [h]
  unfold runBtnSection
  rcases runBtnStep b e now with ⟨b1, act⟩
  rcases act with _ | a
  · rfl
  · rcases a <;> exact startPlayback_of_badMode _ _ _ hm

lemma applyStopAction_mode (g : RobotState) (a : StopAction)
    (h : g.mode = .errorWifi ∨ g.mode = .errorGeneric) :
    (applyStopAction g a).mode = g.mode := by
  rcases a with _ | _
  · simp only [applyStopAction]
    split
    · exact stopAllMovement_mode_error _ _ h
    · exact stopAllMovement_mode_error _ _ h
  · exact stopAllMovement_mode_error _ _ h

lemma stopBtnSection_mode_of_error (g : RobotState) (b : StopState) (e : BtnEvent) (now : Nat)
    (h : g.mode = .errorWifi ∨ g.mode = .errorGeneric) :
    (stopBtnSection g b e now).1.mode = g.mode := by
  unfold stopBtnSection
  rcases stopBtnStep b e now with ⟨b1, act⟩
  rcases act with _ | a
  · rfl
  · exact applyStopAction_mode _ _ h

lemma clampPulse_idem (x : Nat) : clampPulse (clampPulse x) = clampPulse x := by
  unfold clampPulse constrainN
  split_ifs <;> omega

lemma clampV_idem (v : Vec6) : clampV (clampV v) = clampV v := by
  funext i
  exact clampPulse_idem (v i)

lemma loadStep_of_lt (s : RobotState) (idx : Nat) (h : idx < s.numRecorded) :
    loadStep s idx = clampV (s.steps idx) := by
  unfold loadStep
  rw [if_pos h]

lemma shiftSteps_steps : ∀ (k : Nat) (s : RobotState) (a : Nat),
    a + k < s.numRecorded → s.numRecorded ≤ 100 →
    ∀ m, (shiftSteps s a k).steps m =
      if a ≤ m ∧ m < a + k then clampV (s.steps (m + 1)) else s.steps m := by
  intro k
  induction k with
  | zero =>
      intro s a h1 h2 m
      rw [shiftSteps, if_neg (by omega)]
  | succ n ih =>
      intro s a h1 h2 m
      rw [shiftSteps]
      have ha1 : a + 1 < s.numRecorded := by omega
      have ha100 : a < 100 := by omega
      have hsteps : ∀ j, (saveStep s a (loadStep s (a + 1))).steps j =
          if j = a then clampV (s.steps (a + 1)) else s.steps j := by
        intro j
        simp [saveStep_steps_lt s a _ ha100, loadStep_of_lt s (a + 1) ha1, clampV_idem]
      rw [ih (saveStep s a (loadStep s (a + 1))) (a + 1)
            (by rw [saveStep_numRecorded]; omega) (by rw [saveStep_numRecorded]; omega) m]
      by_cases hm : m = a
      · subst hm
        rw [if_neg (by omega), hsteps m, if_pos rfl, if_pos (by omega)]
      · by_cases hrange : a + 1 ≤ m ∧ m < a + 1 + n
        · rw [if_pos hrange, hsteps (m + 1), if_neg (by omega), if_pos (by omega)]
        · rw [if_neg hrange, hsteps m, if_neg hm, if_neg (by omega)]

lemma delete_result (s : RobotState) (i : Nat) (pots : Vec6) (now : Nat)
    (hi : i < s.numRecorded)
    (hmode : ¬(3 ≤ modeNum s.mode ∧ modeNum s.mode ≤ 6)) :
    (handleCommand s (.deleteStep (i : Int)) true pots now).2.1 = true ∧
    (handleCommand s (.deleteStep (i : Int)) true pots now).1.numRecorded =
      s.numRecorded - 1 ∧
    (handleCommand s (.deleteStep (i : Int)) true pots now).1.steps =
      (shiftSteps s i (s.numRecorded - 1 - i)).steps := by
  have hr : ¬((i : Int) < 0 ∨ (s.numRecorded : Int) ≤ (i : Int)) := by omega
  simp only [handleCommand, if_neg hr, if_neg hmode, Int.toNat_natCast, if_true]
  refine ⟨?_, ?_, ?_⟩
  · trivial
  · split_ifs <;> simp [shiftSteps_numRecorded]
  · split_ifs <;> rfl

lemma tdiv_eight_natCast (a : Nat) :
    Int.tdiv (a : Int) (8 : Int) = ((a / 8 : Nat) : Int) := rfl

lemma tdiv_eight_neg_natCast (a : Nat) :
    Int.tdiv (-(a : Int)) (8 : Int) = -((a / 8 : Nat) : Int) := by
  cases a <;> rfl

lemma clampPulse_of_inRange (x : Nat) (h1 : 600 ≤ x) (h2 : x ≤ 2400) : clampPulse x = x := by
  unfold clampPulse constrainN
  split_ifs <;> omega

lemma constrainI_of_inRange (x lo hi : Int) (h1 : lo ≤ x) (h2 : x ≤ hi) :
    constrainI x lo hi = x := by
  unfold constrainI
  rw [if_neg (by omega), if_neg (by omega)]

/-- Closed form of one channel update when the current position is below an
in-range target: if the difference exceeds the deadzone the channel moves
up by `min (diff / 8) 15`; otherwise it is untouched.  (The snap-to-target
branch can never fire, since the truncated step is smaller than any
difference above the deadzone.) -/
lemma smoothChannel_eq_le (t c : Nat) (ht1 : 600 ≤ t) (ht2 : t ≤ 2400)
    (hc1 : 600 ≤ c) (hc2 : c ≤ 2400) (hle : c ≤ t) :
    smoothChannel t c = if 8 < t - c then c + min ((t - c) / 8) 15 else c := by
  have hct := clampPulse_of_inRange t ht1 ht2
  simp only [smoothChannel, hct, constrainI]
  have hdiff : (t : Int) - (c : Int) = ((t - c : Nat) : Int) := by omega
  rw [hdiff, tdiv_eight_natCast]
  split_ifs <;> omega

/-- Closed form of one channel update when the current position is above an
in-range target: if the difference exceeds the deadzone the channel moves
down by `min (diff / 8) 15`; otherwise it is untouched. -/
lemma smoothChannel_eq_ge (t c : Nat) (ht1 : 600 ≤ t) (ht2 : t ≤ 2400)
    (hc1 : 600 ≤ c) (hc2 : c ≤ 2400) (hle : t ≤ c) :
    smoothChannel t c = if 8 < c - t then c - min ((c - t) / 8) 15 else c := by
  have hct := clampPulse_of_inRange t ht1 ht2
  simp only [smoothChannel, hct]
  have hdiff : (t : Int) - (c : Int) = -((c - t : Nat) : Int) := by omega
  rw [hdiff, tdiv_eight_neg_natCast]
  simp only [Int.natAbs_neg, Int.natAbs_ofNat]
  generalize hq : (c - t) / 8 = q
  by_cases h8 : 8 < c - t
  · rw [if_pos h8, if_pos h8]
    rcases Nat.le_total q 15 with hm | hm
    · rw [Nat.min_eq_left hm]
      rw [constrainI_of_inRange (-(q : Int)) (-15) 15 (by omega) (by omega)]
      rw [if_neg (show ¬(-(q : Int)) = 0 by omega)]
      rw [if_neg (show ¬((c - t : Nat) ≤ (-(q : Int)).natAbs) by
            simp only [Int.natAbs_neg, Int.natAbs_ofNat]; omega)]
      rw [constrainI_of_inRange ((c : Int) + -(q : Int)) 600 2400 (by omega) (by omega)]
      omega
    · have hstep : constrainI (-(q : Int)) (-15) 15 = -15 := by
        unfold constrainI
        split_ifs <;> omega
      rw [Nat.min_eq_right hm, hstep]
      rw [if_neg (show ¬(-15 : Int) = 0 by omega)]
      rw [if_neg (show ¬((c - t : Nat) ≤ ((-15 : Int)).natAbs) by
            simp only [Int.natAbs_neg]; omega)]
      rw [constrainI_of_inRange ((c : Int) + -15) 600 2400 (by omega) (by omega)]
      omega
  · rw [if_neg h8, if_neg h8]

/-- The per-tick facts behind the smoothing guarantees: the new current
stays in the pulse bounds, moves monotonically toward the target without
overshoot, is unchanged when already within the deadzone, and otherwise
strictly decreases the distance to the target. -/
lemma smoothChannel_facts (t c : Nat) (ht1 : 600 ≤ t) (ht2 : t ≤ 2400)
    (hc1 : 600 ≤ c) (hc2 : c ≤ 2400) :
    (600 ≤ smoothChannel t c ∧ smoothChannel t c ≤ 2400) ∧
    (c ≤ t → c ≤ smoothChannel t c ∧ smoothChannel t c ≤ t) ∧
    (t ≤ c → t ≤ smoothChannel t c ∧ smoothChannel t c ≤ c) ∧
    (((t : Int) - (c : Int)).natAbs ≤ 8 → smoothChannel t c = c) ∧
    (8 < ((t : Int) - (c : Int)).natAbs →
      ((t : Int) - (smoothChannel t c : Int)).natAbs + 1 ≤
        ((t : Int) - (c : Int)).natAbs) := by
  rcases Nat.le_total c t with hle | hle
  · rw [smoothChannel_eq_le t c ht1 ht2 hc1 hc2 hle]
    generalize hq : (t - c) / 8 = q
    rcases Nat.le_total q 15 with hm | hm
    · rw [Nat.min_eq_left hm]
      refine ⟨?_, fun h => ?_, fun h => ?_, fun h => ?_, fun h => ?_⟩ <;>
        split_ifs <;> omega
    · rw [Nat.min_eq_right hm]
      refine ⟨?_, fun h => ?_, fun h => ?_, fun h => ?_, fun h => ?_⟩ <;>
        split_ifs <;> omega
  · rw [smoothChannel_eq_ge t c ht1 ht2 hc1 hc2 hle]
    generalize hq : (c - t) / 8 = q
    rcases Nat.le_total q 15 with hm | hm
    · rw [Nat.min_eq_left hm]
      refine ⟨?_, fun h => ?_, fun h => ?_, fun h => ?_, fun h => ?_⟩ <;>
        split_ifs <;> omega
    · rw [Nat.min_eq_right hm]
      refine ⟨?_, fun h => ?_, fun h => ?_, fun h => ?_, fun h => ?_⟩ <;>
        split_ifs <;> omega

/-- Channel-wise unfolding of iterated smoothing ticks. -/
lemma smoothTick_iterate_apply (t : Vec6) : ∀ (k : Nat) (c : Vec6) (i : Fin 6),
    ((smoothTick t)^[k] c) i = ((fun x => smoothChannel (t i) x)^[k]) (c i) := by
  intro k
  induction k with
  | zero => intro c i; rfl
  | succ n ih =>
      intro c i
      rw [Function.iterate_succ_apply, Function.iterate_succ_apply]
      exact ih (smoothTick t c) i

/-- Invariant of the iterated channel update: bounds, monotone approach,
and a distance to the target that shrinks by at least one per tick until it
is within the deadzone. -/
lemma smoothChannel_iter_facts (t c : Nat) (ht1 : 600 ≤ t) (ht2 : t ≤ 2400)
    (hc1 : 600 ≤ c) (hc2 : c ≤ 2400) : ∀ k : Nat,
    (600 ≤ ((fun x => smoothChannel t x)^[k]) c ∧
      ((fun x => smoothChannel t x)^[k]) c ≤ 2400) ∧
    (c ≤ t → c ≤ ((fun x => smoothChannel t x)^[k]) c ∧
      ((fun x => smoothChannel t x)^[k]) c ≤ t) ∧
    (t ≤ c → t ≤ ((fun x => smoothChannel t x)^[k]) c ∧
      ((fun x => smoothChannel t x)^[k]) c ≤ c) ∧
    ((t : Int) - (((fun x => smoothChannel t x)^[k]) c : Int)).natAbs ≤
      max 8 (((t : Int) - (c : Int)).natAbs - k) := by
  intro k
  induction k with
  | zero =>
      refine ⟨⟨hc1, hc2⟩, fun h => ⟨le_refl c, h⟩, fun h => ⟨h, le_refl c⟩, ?_⟩
      simp only [Function.iterate_zero_apply]
      omega
  | succ n ih =>
      obtain ⟨⟨hx1, hx2⟩, hup, hdown, hdist⟩ := ih
      have hf := smoothChannel_facts t (((fun x => smoothChannel t x)^[n]) c) ht1 ht2 hx1 hx2
      simp only [Function.iterate_succ_apply']
      refine ⟨hf.1, fun h => ?_, fun h => ?_, ?_⟩
      · obtain ⟨h1, h2⟩ := hup h
        obtain ⟨h3, h4⟩ := hf.2.1 h2
        exact ⟨le_trans h1 h3, h4⟩
      · obtain ⟨h1, h2⟩ := hdown h
        obtain ⟨h3, h4⟩ := hf.2.2.1 h1
        exact ⟨h3, le_trans h4 h2⟩
      · by_cases hsml : ((t : Int) - (((fun x => smoothChannel t x)^[n]) c : Int)).natAbs ≤ 8
        · rw [hf.2.2.2.1 hsml]
          omega
        · have hprog := hf.2.2.2.2 (by omega)
          omega

end Lemmas

/-- C1: for any target and current position vectors with all channels in
`[MIN_SERVO_PULSE, MAX_SERVO_PULSE] = [600, 2400]`, iterating the smoothing
tick with the target held fixed (1) keeps every channel inside the pulse
bounds, (2) moves every channel monotonically toward its target without
ever overshooting it, (3) brings every channel within the deadzone (8) of
its target after at most `N` ticks whenever `N` bounds every initial
`|target - current|`, and (4) leaves any settled vector unchanged, so the
reached state is a fixed point and further ticks are idempotent. -/
theorem servo_smoothing_spec (t c : Vec6)
    (ht : ∀ i, 600 ≤ t i ∧ t i ≤ 2400) (hc : ∀ i, 600 ≤ c i ∧ c i ≤ 2400) :
    (∀ (k : Nat) (i : Fin 6),
        600 ≤ ((smoothTick t)^[k] c) i ∧ ((smoothTick t)^[k] c) i ≤ 2400) ∧
    (∀ (k : Nat) (i : Fin 6),
        (((smoothTick t)^[k] c) i ≤ t i →
          ((smoothTick t)^[k] c) i ≤ ((smoothTick t)^[k + 1] c) i ∧
          ((smoothTick t)^[k + 1] c) i ≤ t i) ∧
        (t i ≤ ((smoothTick t)^[k] c) i →
          ((smoothTick t)^[k + 1] c) i ≤ ((smoothTick t)^[k] c) i ∧
          t i ≤ ((smoothTick t)^[k + 1] c) i)) ∧
    (∀ N : Nat, (∀ i, ((t i : Int) - (c i : Int)).natAbs ≤ N) →
        ∀ k, N ≤ k →
          ∀ i, ((t i : Int) - (((smoothTick t)^[k] c) i : Int)).natAbs ≤ 8) ∧
    (∀ d : Vec6, (∀ i, ((t i : Int) - (d i : Int)).natAbs ≤ 8) →
        smoothTick t d = d) := by
  have chan := fun i : Fin 6 =>
    smoothChannel_iter_facts (t i) (c i) (ht i).1 (ht i).2 (hc i).1 (hc i).2
  refine ⟨?_, ?_, ?_, ?_⟩
  · intro k i
    rw [smoothTick_iterate_apply]
    exact (chan i k).1
  · intro k i
    have hx := (chan i k).1
    have hf := smoothChannel_facts (t i) (((fun x => smoothChannel (t i) x)^[k]) (c i))
      (ht i).1 (ht i).2 hx.1 hx.2
    constructor
    · intro hle
      rw [smoothTick_iterate_apply] at hle
      rw [smoothTick_iterate_apply, smoothTick_iterate_apply,
          Function.iterate_succ_apply']
      exact hf.2.1 hle
    · intro hge
      rw [smoothTick_iterate_apply] at hge
      rw [smoothTick_iterate_apply, smoothTick_iterate_apply,
          Function.iterate_succ_apply']
      have h := hf.2.2.1 hge
      exact ⟨h.2, h.1⟩
  · intro N hN k hk i
    rw [smoothTick_iterate_apply]
    have hiter := (chan i k).2.2.2
    have hD := hN i
    omega
  · intro d hd
    funext i
    show smoothChannel (t i) (d i) = d i
    simp only [smoothChannel, clampPulse_of_inRange (t i) (ht i).1 (ht i).2]
    rw [if_neg (by have := hd i; omega)]

/-- C1 witness: with all targets at 2000 and all currents at 600, every
channel is within the deadzone of its target after 1400 ticks. -/
theorem servo_smoothing_spec_witness :
    ((targetSample (0 : Fin 6) : Int) -
      (((smoothTick targetSample)^[1400] currentSample) (0 : Fin 6) : Int)).natAbs ≤ 8 :=
  (servo_smoothing_spec targetSample currentSample (by decide) (by decide)).2.2.1
    1400 (by decide) 1400 (le_refl 1400) (0 : Fin 6)

/-- C2 (code evaluation at the failing input): run-button trace — press at
0 ms, release at 100 ms, second press at 550 ms (outside the 500 ms
double-press window measured from the first press, so the code logs it as a
new first press), then one poll at 601 ms with the button still held.  No
action has been emitted up to the restart press, yet the poll at 601 ms
emits a `Single` (starting manual playback) because the stale first-release
timer (100 ms) was not cleared by the restart — an action fires before the
restarted sequence has completed, and the restarted sequence's recognizer
state is destroyed (`waitingSecond` is cleared with no action left for its
own release). -/
theorem run_button_restart_stale_single :
    (runBtnTrace RunState.init [(0, .press), (100, .release), (550, .press)]).2 = [] ∧
    (runBtnTrace RunState.init [(0, .press), (100, .release), (550, .press)]).1.waitingSecond
      = true ∧
    (runBtnTrace RunState.init [(0, .press), (100, .release), (550, .press)]).1.firstPressTime
      = 550 ∧
    (runBtnTrace RunState.init
        [(0, .press), (100, .release), (550, .press), (601, .tick)]).2 =
      [RunAction.single] ∧
    (runBtnTrace RunState.init
        [(0, .press), (100, .release), (550, .press), (601, .tick)]).1.waitingSecond
      = false := by
  refine ⟨rfl, rfl, rfl, rfl, rfl⟩

/-- C10 counterexample: a stop-button double press (second press at 400 ms,
within 500 ms of the first press at 100 ms) in the fault state leaves the
mode at `MODE_ERROR_WIFI` instead of returning to Idle, because
`stopAllMovement(true)` never leaves the error modes. -/
theorem stop_double_press_counterexample :
    (stopBtnSection errorState stopArmed .press 400).1.mode = OperatingMode.errorWifi ∧
    OperatingMode.errorWifi ≠ OperatingMode.idle := by
  refine ⟨rfl, by decide⟩

/-- C10 (amended): a stop-button double press (second press within 500 ms
of the first) with steps recorded loads stored step 0 as both the target
and the current vector in the same pass, writes it to the servo driver
immediately (bypassing the smoother), and resets the playback cursor to 0;
with no steps it only stops (target := current).  In both cases the mode
returns to Idle unless the controller is in a fault mode
(`MODE_ERROR_WIFI`/`MODE_ERROR_GENERIC`), in which case the mode is left
unchanged. -/
theorem stop_double_press_spec (g : RobotState) (b : StopState) (now : Nat)
    (hw : b.waitingSecond = true) (ha : b.actionTaken = false)
    (hin : now - b.firstPressTime ≤ 500) :
    (0 < g.numRecorded →
      (stopBtnSection g b .press now).1.target = loadStep g 0 ∧
      (stopBtnSection g b .press now).1.current = loadStep g 0 ∧
      (stopBtnSection g b .press now).1.driver = loadStep g 0 ∧
      (stopBtnSection g b .press now).1.playbackIndex = 0) ∧
    (g.numRecorded = 0 →
      (stopBtnSection g b .press now).1.target = g.current ∧
      (stopBtnSection g b .press now).1.current = g.current ∧
      (stopBtnSection g b .press now).1.playbackIndex = g.playbackIndex) ∧
    ((g.mode ≠ .errorWifi ∧ g.mode ≠ .errorGeneric) →
      (stopBtnSection g b .press now).1.mode = OperatingMode.idle) ∧
    ((g.mode = .errorWifi ∨ g.mode = .errorGeneric) →
      (stopBtnSection g b .press now).1.mode = g.mode) := by
  have hstep : stopBtnStep b .press now =
      ({ b with actionTaken := true, waitingSecond := false }, some StopAction.stopReset) := by
    simp [stopBtnStep, hw, ha, hin]
  refine ⟨fun hn => ?_, fun hn => ?_, fun hm => ?_, fun hm => ?_⟩
  · simp [stopBtnSection, hstep, applyStopAction, hn, stopAllMovement]
    split_ifs <;> simp
  · simp [stopBtnSection, hstep, applyStopAction, hn, stopAllMovement]
    split_ifs <;> simp
  · simp only [stopBtnSection, hstep, applyStopAction]
    split_ifs with h1
    · simp [stopAllMovement, hm]
    · simp [stopAllMovement, hm]
  · rw [show (stopBtnSection g b .press now).1 = applyStopAction g StopAction.stopReset by
        simp [stopBtnSection, hstep]]
    exact applyStopAction_mode g StopAction.stopReset hm

/-- C10 witness: a double press in the sample (idle) state returns the mode
to Idle. -/
theorem stop_double_press_spec_witness :
    (stopBtnSection sampleState stopArmed .press 400).1.mode = OperatingMode.idle :=
  (stop_double_press_spec sampleState stopArmed 400 rfl rfl (by decide)).2.2.1 (by decide)

/-- C3 counterexample: with the controller in the fault mode
`MODE_ERROR_WIFI`, the web `clear` command is accepted (its guard only
excludes the playback and clearing modes) and leaves the controller in
`MODE_IDLE` — a trigger that changes the operating mode out of a fault
state without an external reset. -/
theorem fault_clear_escapes_counterexample :
    errorState.mode = OperatingMode.errorWifi ∧
    (handleCommand errorState .clear true potsZero 0).1.mode = OperatingMode.idle ∧
    OperatingMode.idle ≠ OperatingMode.errorWifi := by
  refine ⟨rfl, ?_, by decide⟩
  rfl

/-- C3 (amended): once in a fault mode (`MODE_ERROR_WIFI` or
`MODE_ERROR_GENERIC`), no web command other than `clear` and no button
input ever changes the operating mode; the web `clear` command is the one
exception — its guard only excludes playback/clearing modes, so it runs the
memory clear and leaves the mode at `MODE_IDLE`, exiting the fault state. -/
theorem fault_modes_absorbing_except_clear (s : RobotState) (commitOk : Bool) (pots : Vec6)
    (now : Nat) (hmode : s.mode = .errorWifi ∨ s.mode = .errorGeneric) :
    (∀ cmd : Command, cmd ≠ .clear →
        (handleCommand s cmd commitOk pots now).1.mode = s.mode) ∧
    (handleCommand s .clear commitOk pots now).1.mode = OperatingMode.idle ∧
    (∀ (b : ButtonsState) (cf cd cr rf : Bool) (re se : BtnEvent),
        (handleButtonsStep s b cf cd cr rf re se now commitOk).1.mode = s.mode) := by
  have hguard : ¬((s.mode = .idle ∨ s.mode = .manualPot ∨ s.mode = .webControl) ∧
      0 < s.numRecorded) := by
    rcases hmode with h | h <;> simp [h]
  have hnum : modeNum s.mode = 7 ∨ modeNum s.mode = 8 := by
    rcases hmode with h | h <;> simp [h, modeNum]
  refine ⟨?_, ?_, ?_⟩
  · intro cmd hne
    cases cmd with
    | playManual => simp [handleCommand, hguard]
    | playSemiAuto => simp [handleCommand, hguard]
    | playFullAuto => simp [handleCommand, hguard]
    | record =>
        have hm : ¬(s.mode = .manualPot ∨ s.mode = .webControl ∨ s.mode = .idle) := by
          rcases hmode with h | h <;> simp [h]
        simp [handleCommand, hm]
    | clear => exact absurd rfl hne
    | stop =>
        have h1 : ¬(1 ≤ modeNum s.mode ∧ modeNum s.mode ≤ 5) := by omega
        have h2 : s.mode ≠ .idle := by rcases hmode with h | h <;> simp [h]
        simp [handleCommand, h1, h2]
    | toggleMode =>
        have h1 : s.mode ≠ .manualPot := by rcases hmode with h | h <;> simp [h]
        have h2 : s.mode ≠ .webControl := by rcases hmode with h | h <;> simp [h]
        have h3 : s.mode ≠ .idle := by rcases hmode with h | h <;> simp [h]
        have h4 : ¬(3 ≤ modeNum s.mode ∧ modeNum s.mode ≤ 5) := by omega
        simp [handleCommand, h1, h2, h3, h4]
    | jumpToStep idx => simp [handleCommand, hguard]
    | deleteStep idx =>
        by_cases hr : idx < 0 ∨ (s.numRecorded : Int) ≤ idx
        · simp [handleCommand, hr]
        · have h4 : ¬(3 ≤ modeNum s.mode ∧ modeNum s.mode ≤ 6) := by omega
          simp only [handleCommand, if_neg hr, if_neg h4]
          cases commitOk
          · simp [shiftSteps_mode]
          · simp only [shiftSteps_mode, if_true]
            split_ifs <;> simp [shiftSteps_mode]
    | unknown => simp [handleCommand]
  · have hcl : s.mode ≠ .playbackManual ∧ s.mode ≠ .playbackSemiAuto ∧
        s.mode ≠ .playbackFullAuto ∧ s.mode ≠ .clearingMem := by
      rcases hmode with h | h <;> simp [h]
    simp [handleCommand, hcl, clearEEPROM_mode]
  · intro b cf cd cr rf re se
    simp only [handleButtonsStep]
    rw [clearBtnSection_state_of_error s b.clearPressTime cf cd cr now commitOk hmode,
        recordBtnSection_of_error s rf commitOk hmode]
    rw [runBtnSection_of_error s b.run re now hmode]
    exact stopBtnSection_mode_of_error s b.stop se now hmode

/-- C3 witness: in the sample fault state, the `stop` command leaves the
fault mode in place. -/
theorem fault_modes_absorbing_witness :
    (handleCommand errorState .stop true potsZero 0).1.mode = errorState.mode :=
  (fault_modes_absorbing_except_clear errorState true potsZero 0 (Or.inl rfl)).1
    .stop (by decide)

/-- C4 counterexample: in `MODE_WEB_CONTROL` with every target at 1500 and
all pots at raw value 0 (which maps to pulse 600), the `toggle_mode`
command switches to `MODE_MANUAL_POT` but leaves the target at 1500: the
`readPotentiometers()` call made during the transition is a no-op because
the mode it guards on is still `MODE_WEB_CONTROL` at that point, so no
sensor re-read happens as part of the transition itself. -/
theorem toggle_no_reread_counterexample :
    (handleCommand webState .toggleMode true potsZero 0).1.mode = OperatingMode.manualPot ∧
    (handleCommand webState .toggleMode true potsZero 0).1.target (0 : Fin 6) = 1500 ∧
    mapPot (potsZero (0 : Fin 6)) = 600 ∧ (1500 : Nat) ≠ 600 := by
  refine ⟨rfl, rfl, by decide, by decide⟩

/-- C4 (amended): a `toggle_mode` from RemoteControl performs no sensor
re-read as part of the transition itself (the `readPotentiometers` call it
makes is disabled by that function's own mode guard, which still sees
`MODE_WEB_CONTROL`); the target is instead re-read immediately afterwards
by the main loop's ManualInput branch, which calls `readPotentiometers` in
the new mode; toggling into RemoteControl (from ManualInput or Idle)
performs no sensor re-read. -/
theorem toggle_reread_amended (s : RobotState) (commitOk : Bool) (pots pots2 : Vec6)
    (now : Nat) :
    (s.mode = .webControl →
      (handleCommand s .toggleMode commitOk pots now).1.mode = OperatingMode.manualPot ∧
      (handleCommand s .toggleMode commitOk pots now).1.target = s.target ∧
      (readPotentiometers (handleCommand s .toggleMode commitOk pots now).1 pots2).target =
        fun i => mapPot (pots2 i)) ∧
    ((s.mode = .manualPot ∨ s.mode = .idle) →
      (handleCommand s .toggleMode commitOk pots now).1.mode = OperatingMode.webControl ∧
      (handleCommand s .toggleMode commitOk pots now).1.target = s.target) := by
  constructor
  · intro h
    have h1 : s.mode ≠ .manualPot := by simp [h]
    refine ⟨by simp [handleCommand, h1, h, readPotentiometers],
            by simp [handleCommand, h1, h, readPotentiometers],
            by simp [handleCommand, h1, h, readPotentiometers]⟩
  · intro h
    rcases h with h | h
    · exact ⟨by simp [handleCommand, h], by simp [handleCommand, h]⟩
    · have h1 : s.mode ≠ .manualPot := by simp [h]
      have h2 : s.mode ≠ .webControl := by simp [h]
      exact ⟨by simp [handleCommand, h1, h2, h], by simp [handleCommand, h1, h2, h]⟩

/-- C4 witness: after toggling the sample web-control state, the loop's
ManualInput branch re-reads the targets from the pots. -/
theorem toggle_reread_amended_witness :
    (readPotentiometers (handleCommand webState .toggleMode true potsZero 0).1 potsZero).target =
      fun i => mapPot (potsZero i) :=
  ((toggle_reread_amended webState true potsZero potsZero 0).1 rfl).2.2

/-- C7: a play trigger (`play_manual`, `play_semi_auto`, `play_full_auto`) is
accepted if and only if the mode is Idle, ManualInput or RemoteControl and
the step count is positive; on acceptance the mode becomes the
corresponding playback mode and the stored vector at the playback cursor
(clamped to 0 when out of range) is loaded as the target; otherwise the
trigger is rejected — reporting "no steps" when the count is 0 — and the
whole state (mode, cursor, target) is unchanged. -/
theorem play_trigger_spec (s : RobotState) (pots : Vec6) (now : Nat)
    (cmd : Command) (pb : OperatingMode)
    (hcmd : (cmd = .playManual ∧ pb = .playbackManual) ∨
            (cmd = .playSemiAuto ∧ pb = .playbackSemiAuto) ∨
            (cmd = .playFullAuto ∧ pb = .playbackFullAuto)) :
    ((handleCommand s cmd true pots now).2.1 = true ↔
      ((s.mode = .idle ∨ s.mode = .manualPot ∨ s.mode = .webControl) ∧ 0 < s.numRecorded)) ∧
    ((handleCommand s cmd true pots now).2.1 = true →
      (handleCommand s cmd true pots now).1.mode = pb ∧
      (handleCommand s cmd true pots now).1.target =
        loadStep s (if s.numRecorded ≤ s.playbackIndex then 0 else s.playbackIndex)) ∧
    ((handleCommand s cmd true pots now).2.1 = false →
      (handleCommand s cmd true pots now).1 = s ∧
      (s.numRecorded = 0 → (handleCommand s cmd true pots now).2.2 = .noStepsToPlay)) := by
  by_cases hg : (s.mode = .idle ∨ s.mode = .manualPot ∨ s.mode = .webControl) ∧
      0 < s.numRecorded
  · rcases hcmd with ⟨hc, hp⟩ | ⟨hc, hp⟩ | ⟨hc, hp⟩ <;> subst hc <;> subst hp
    · have hsp := startPlayback_spec s .playbackManual now hg.1 hg.2
      simp [handleCommand, hg, hsp.1, hsp.2]
    · have hsp := startPlayback_spec s .playbackSemiAuto now hg.1 hg.2
      simp [handleCommand, hg, hsp.1, hsp.2]
    · have hsp := startPlayback_spec s .playbackFullAuto now hg.1 hg.2
      simp [handleCommand, hg, hsp.1, hsp.2]
  · rcases hcmd with ⟨hc, hp⟩ | ⟨hc, hp⟩ | ⟨hc, hp⟩ <;> subst hc <;> subst hp <;>
    · simp only [handleCommand, if_neg hg]
      constructor
      · simp [hg]
      constructor
      · simp
      · intro hf
        constructor
        · trivial
        · intro h0
          simp [h0]

/-- C7 witness: with three recorded steps and idle mode, `play_manual` is
accepted. -/
theorem play_trigger_spec_witness :
    (handleCommand sampleState .playManual true potsZero 0).2.1 = true :=
  (play_trigger_spec sampleState potsZero 0 .playManual .playbackManual
      (Or.inl ⟨rfl, rfl⟩)).1.mpr (by decide)

/-- C8: `jump_to_step{index}` in mode Idle, ManualInput or RemoteControl
with `0 ≤ index < count` sets the target to the stored vector at that index
and the playback cursor to `(index + 1) % count`; an out-of-range index, a
zero count or a disallowed mode is rejected with no state change. -/
theorem jump_to_step_spec (s : RobotState) (pots : Vec6) (now : Nat) (idx : Int) :
    ((handleCommand s (.jumpToStep idx) true pots now).2.1 = true ↔
      ((s.mode = .idle ∨ s.mode = .manualPot ∨ s.mode = .webControl) ∧
       0 < s.numRecorded ∧ 0 ≤ idx ∧ idx < (s.numRecorded : Int))) ∧
    ((handleCommand s (.jumpToStep idx) true pots now).2.1 = true →
      (handleCommand s (.jumpToStep idx) true pots now).1.target = loadStep s idx.toNat ∧
      (handleCommand s (.jumpToStep idx) true pots now).1.playbackIndex =
        (idx.toNat + 1) % s.numRecorded) ∧
    ((handleCommand s (.jumpToStep idx) true pots now).2.1 = false →
      (handleCommand s (.jumpToStep idx) true pots now).1 = s) := by
  by_cases hg : (s.mode = .idle ∨ s.mode = .manualPot ∨ s.mode = .webControl) ∧
      0 < s.numRecorded
  · by_cases hi : 0 ≤ idx ∧ idx < (s.numRecorded : Int)
    · simp [handleCommand, hg, hi]
    · simp [handleCommand, hg, hi]
      try tauto
  · simp [handleCommand, hg]
    try tauto

/-- C8 witness: jumping to step 1 with three recorded steps is accepted. -/
theorem jump_to_step_spec_witness :
    (handleCommand sampleState (.jumpToStep 1) true potsZero 0).2.1 = true :=
  (jump_to_step_spec sampleState potsZero 0 1).1.mpr (by decide)

/-- C9 (implicit): every successful record operation — web `record` command
or record button — that brings the count to `n` overwrites the playback
cursor with `n % 100` (one slot past the last recorded step, 0 when the
store just became full), regardless of the cursor's previous value. -/
theorem record_sets_cursor (s : RobotState) (pots : Vec6) (now : Nat)
    (hmode : s.mode = .manualPot ∨ s.mode = .webControl ∨ s.mode = .idle)
    (hcap : s.numRecorded < 100) :
    (handleCommand s .record true pots now).2.1 = true ∧
    (handleCommand s .record true pots now).1.numRecorded = s.numRecorded + 1 ∧
    (handleCommand s .record true pots now).1.playbackIndex = (s.numRecorded + 1) % 100 ∧
    (recordBtnSection s true true).numRecorded = s.numRecorded + 1 ∧
    (recordBtnSection s true true).playbackIndex = (s.numRecorded + 1) % 100 := by
  simp [handleCommand, recordBtnSection, hmode, hcap, saveStep_numRecorded]

/-- C9 witness: recording in the sample state moves the cursor to 4. -/
theorem record_sets_cursor_witness :
    (handleCommand sampleState .record true potsZero 0).1.playbackIndex =
      (sampleState.numRecorded + 1) % 100 :=
  (record_sets_cursor sampleState potsZero 0 (by decide) (by decide)).2.2.1

/-- C5: for a store with count `n ≥ 1` and any `i < n`, a successful
`delete_step(i)` (in a permitted mode, with a successful commit) leaves the
count at `n - 1`; afterwards reading any step `j` with `i ≤ j < n - 1`
returns the vector previously stored at `j + 1`, and steps below `i` are
unchanged. -/
theorem delete_step_shifts (s : RobotState) (i : Nat) (pots : Vec6) (now : Nat)
    (hn1 : 1 ≤ s.numRecorded) (hn2 : s.numRecorded ≤ 100) (hi : i < s.numRecorded)
    (hmode : ¬(3 ≤ modeNum s.mode ∧ modeNum s.mode ≤ 6)) :
    (handleCommand s (.deleteStep (i : Int)) true pots now).2.1 = true ∧
    (handleCommand s (.deleteStep (i : Int)) true pots now).1.numRecorded =
      s.numRecorded - 1 ∧
    (∀ j, i ≤ j → j + 1 < s.numRecorded →
      loadStep (handleCommand s (.deleteStep (i : Int)) true pots now).1 j =
        loadStep s (j + 1)) ∧
    (∀ j, j < i →
      loadStep (handleCommand s (.deleteStep (i : Int)) true pots now).1 j =
        loadStep s j) := by
  obtain ⟨hok, hnum, hsteps⟩ := delete_result s i pots now hi hmode
  have hshift := shiftSteps_steps (s.numRecorded - 1 - i) s i (by omega) hn2
  refine ⟨hok, hnum, ?_, ?_⟩
  · intro j hij hj1
    rw [loadStep_of_lt _ j (by omega), loadStep_of_lt s (j + 1) hj1, hsteps,
        hshift j, if_pos (by omega), clampV_idem]
  · intro j hji
    rw [loadStep_of_lt _ j (by omega), loadStep_of_lt s j (by omega), hsteps,
        hshift j, if_neg (by omega)]

/-- C5 witness: deleting step 1 of the three-step sample store succeeds and
leaves two steps. -/
theorem delete_step_shifts_witness :
    (handleCommand sampleState (.deleteStep (1 : Int)) true potsZero 0).2.1 = true ∧
    (handleCommand sampleState (.deleteStep (1 : Int)) true potsZero 0).1.numRecorded =
      sampleState.numRecorded - 1 :=
  ⟨(delete_step_shifts sampleState 1 potsZero 0 (by decide) (by decide) (by decide)
      (by decide)).1,
   (delete_step_shifts sampleState 1 potsZero 0 (by decide) (by decide) (by decide)
      (by decide)).2.1⟩

/-- C6: when the EEPROM commit of a record (append) or `delete_step`
mutation fails, the in-memory step count is rolled back to its pre-mutation
value, the command is acknowledged as failed, and the operating mode is
unchanged (shown for the web record command, the web delete command, and
the record button). -/
theorem commit_failure_rollback (s : RobotState) (pots : Vec6) (now : Nat) (idx : Int) :
    ((s.mode = .manualPot ∨ s.mode = .webControl ∨ s.mode = .idle) → s.numRecorded < 100 →
      (handleCommand s .record false pots now).1.numRecorded = s.numRecorded ∧
      (handleCommand s .record false pots now).2.1 = false ∧
      (handleCommand s .record false pots now).1.mode = s.mode) ∧
    ((0 ≤ idx ∧ idx < (s.numRecorded : Int)) → ¬(3 ≤ modeNum s.mode ∧ modeNum s.mode ≤ 6) →
      (handleCommand s (.deleteStep idx) false pots now).1.numRecorded = s.numRecorded ∧
      (handleCommand s (.deleteStep idx) false pots now).2.1 = false ∧
      (handleCommand s (.deleteStep idx) false pots now).1.mode = s.mode) ∧
    ((s.mode = .manualPot ∨ s.mode = .webControl ∨ s.mode = .idle) → s.numRecorded < 100 →
      (recordBtnSection s true false).numRecorded = s.numRecorded ∧
      (recordBtnSection s true false).mode = s.mode) := by
  refine ⟨fun hmode hcap => ?_, fun hidx hmode => ?_, fun hmode hcap => ?_⟩
  · simp [handleCommand, hmode, hcap, saveStep_numRecorded, saveStep_mode]
  · have hrange : ¬(idx < 0 ∨ (s.numRecorded : Int) ≤ idx) := by omega
    simp only [handleCommand, if_neg hrange, if_neg hmode]
    simp [shiftSteps_numRecorded, shiftSteps_mode]
    omega
  · simp [recordBtnSection, hmode, hcap, saveStep_numRecorded, saveStep_mode]

/-- C6 witness: a failing commit while recording in the sample state leaves
the count at 3 and reports failure. -/
theorem commit_failure_rollback_witness :
    (handleCommand sampleState .record false potsZero 0).1.numRecorded =
      sampleState.numRecorded ∧
    (handleCommand sampleState .record false potsZero 0).2.1 = false :=
  ⟨((commit_failure_rollback sampleState potsZero 0 0).1 (by decide) (by decide)).1,
   ((commit_failure_rollback sampleState potsZero 0 0).1 (by decide) (by decide)).2.1⟩

end Robot
